import Mathlib

/-!
Verification of the transactional consistency demonstration in
`src/lecture8.ipynb` (bank-transfer examples over an `accounts` table).

Monetary values of SQL type `DECIMAL(10, 2)` are represented exactly as
integer numbers of cents: the literal `1000.00` becomes `100000 : Int`.
The `accounts` table is a list of rows, in insertion order, as PostgreSQL
returns them for the demonstrated statements.
-/

/-- One row of the `accounts` table from cell-8:
`account_id VARCHAR(10) PRIMARY KEY, balance DECIMAL(10, 2)`.
The balance is in cents. -/
structure Account where
  account_id : String
  balance : Int
deriving DecidableEq, Repr

/-- The `accounts` table: its rows in order. -/
abbrev AccountsTable := List Account

/-- The list of `account_id` values of a table, in row order. -/
def idsOf (s : AccountsTable) : List String :=
  s.map Account.account_id

/-- Embedding of
`UPDATE accounts SET balance = balance + delta WHERE account_id = id`:
every row whose `account_id` equals `id` has `delta` added to its balance
(a debit is an update with negative `delta`). -/
def updateBalance (s : AccountsTable) (id : String) (delta : Int) : AccountsTable :=
  s.map (fun r => if r.account_id = id then { r with balance := r.balance + delta } else r)

/-- Embedding of
`SELECT balance FROM accounts WHERE account_id = id` used with `INTO`:
the balance of the first matching row, or `none` (SQL `NULL`) when no row
matches. -/
def selectBalance (s : AccountsTable) (id : String) : Option Int :=
  (s.find? (fun r => r.account_id = id)).map Account.balance

/-- The table right after cell-8's bulk insert:
`INSERT INTO accounts (account_id, balance) VALUES ('A', 1000.00), ('B', 500.00)`. -/
def initialAccounts : AccountsTable :=
  [⟨"A", 100000⟩, ⟨"B", 50000⟩]

/-- The committed transfer pattern of cell-22 and cell-41: debit `amount`
from `src`, then credit `amount` to `dst`, both inside one transaction
that commits, so the whole thing is a single state-to-state step. -/
def transfer (s : AccountsTable) (src dst : String) (amount : Int) : AccountsTable :=
  updateBalance (updateBalance s src (-amount)) dst amount

/-- The deposit `DO` block of cell-35: add `amount` to account `id`. -/
def deposit (s : AccountsTable) (id : String) (amount : Int) : AccountsTable :=
  updateBalance s id amount

/-- The rollback example of cell-48: debit `amount` from `'A'`, credit it
to `'B'`, read back `'A'`'s balance into `account_a_balance`, then
`COMMIT` when it is `>= 0` and `ROLLBACK` otherwise. Returns the resulting
table together with `true` when the transaction committed. A `NULL` read
(no row `'A'`) makes the `IF` condition not true, taking the `ELSE`
rollback branch, as in PL/pgSQL. -/
def transferWithCheck (s : AccountsTable) (amount : Int) : AccountsTable × Bool :=
  let s2 := transfer s "A" "B" amount
  match selectBalance s2 "A" with
  | some b => if 0 ≤ b then (s2, true) else (s, false)
  | none => (s, false)

/-- The constraints cell-8's schema actually declares: `account_id` fits
`VARCHAR(10)` and is a primary key (distinct, at most one row per id), and
`balance` fits `DECIMAL(10, 2)` (absolute value below 10^8, i.e. below
10^10 cents). There is no `CHECK` constraint on the sign of `balance`. -/
def tableSchemaOk (s : AccountsTable) : Prop :=
  (idsOf s).Nodup ∧ ∀ r ∈ s, r.account_id.length ≤ 10 ∧ r.balance.natAbs < 10 ^ 10

instance : DecidablePred tableSchemaOk := fun s => by
  unfold tableSchemaOk; infer_instance

/-- The taught invariant (never enforced by a constraint in the source):
no account balance is negative. -/
def nonNegativeBalances (s : AccountsTable) : Prop :=
  ∀ r ∈ s, 0 ≤ r.balance

instance : DecidablePred nonNegativeBalances := fun s => by
  unfold nonNegativeBalances; infer_instance

/-- Total money across all rows, in cents: what `SELECT SUM(balance)` would
return. -/
def balanceSum (s : AccountsTable) : Int :=
  (s.map Account.balance).sum

/-- State after cell-22's committed transfer of 100.00 from A to B. -/
def afterFirstTransfer : AccountsTable :=
  transfer initialAccounts "A" "B" 10000

/-- State after cell-35's deposit of 100.00 to A. -/
def afterDeposit : AccountsTable :=
  deposit afterFirstTransfer "A" 10000

/-- State after cell-41's transfer of 100.00 from A to B inside a `DO` block. -/
def afterSecondTransfer : AccountsTable :=
  transfer afterDeposit "A" "B" 10000

/-- Unfolding an update over a cons cell. -/
theorem updateBalance_cons (r : Account) (t : AccountsTable) (id : String)
    (delta : Int) :
    updateBalance (r :: t) id delta
      = (if r.account_id = id then { r with balance := r.balance + delta } else r)
          :: updateBalance t id delta :=
  rfl

/-- Unfolding a balance read over a cons cell. -/
theorem selectBalance_cons (r : Account) (t : AccountsTable) (id : String) :
    selectBalance (r :: t) id
      = if r.account_id = id then some r.balance else selectBalance t id := by
  unfold selectBalance
  by_cases h : r.account_id = id
  · rw [List.find?_cons_of_pos _ (by simpa using h), if_pos h]
    rfl
  · rw [List.find?_cons_of_neg _ (by simpa using h), if_neg h]

/-- Unfolding the id list over a cons cell. -/
theorem idsOf_cons (r : Account) (t : AccountsTable) :
    idsOf (r :: t) = r.account_id :: idsOf t :=
  rfl

/-- An update never changes the list of `account_id` values: it inserts
and deletes no row, and with `balance` the only other field of a row, it
mutates nothing but balances. -/
theorem idsOf_updateBalance (s : AccountsTable) (id : String) (delta : Int) :
    idsOf (updateBalance s id delta) = idsOf s := by
  induction s with
  | nil => rfl
  | cons r t ih =>
    rw [updateBalance_cons, idsOf_cons, idsOf_cons, ih]
    by_cases hr : r.account_id = id <;> simp [hr]

/-- Reading a balance other than the updated one is unaffected by the
update. -/
theorem selectBalance_updateBalance_ne (s : AccountsTable) (id id' : String)
    (delta : Int) (h : id' ≠ id) :
    selectBalance (updateBalance s id delta) id' = selectBalance s id' := by
  induction s with
  | nil => rfl
  | cons r t ih =>
    rw [updateBalance_cons, selectBalance_cons, selectBalance_cons, ih]
    by_cases hr : r.account_id = id
    · have hne' : ¬ r.account_id = id' := by rw [hr]; exact fun e => h e.symm
      simp [hr, hne', Ne.symm h]
    · simp [hr]

/-- Reading the updated balance returns the previous value plus the
delta (read of the first matching row, as `SELECT ... INTO` does). -/
theorem selectBalance_updateBalance_self (s : AccountsTable) (id : String)
    (delta : Int) :
    selectBalance (updateBalance s id delta) id
      = (selectBalance s id).map (fun b => b + delta) := by
  induction s with
  | nil => rfl
  | cons r t ih =>
    rw [updateBalance_cons, selectBalance_cons, selectBalance_cons]
    by_cases hr : r.account_id = id <;> simp [hr, ih]

/-- Updating an id that has no row leaves the table unchanged. -/
theorem updateBalance_of_not_mem (s : AccountsTable) (id : String)
    (delta : Int) (h : id ∉ idsOf s) :
    updateBalance s id delta = s := by
  induction s with
  | nil => rfl
  | cons r t ih =>
    rw [idsOf_cons, List.mem_cons, not_or] at h
    rw [updateBalance_cons, if_neg (fun e => h.1 e.symm), ih h.2]

/-- An update to an id that occurs in exactly one row (as the primary key
guarantees) shifts the total money by exactly the delta. -/
theorem balanceSum_updateBalance (s : AccountsTable) (id : String)
    (delta : Int) (hnd : (idsOf s).Nodup) (hmem : id ∈ idsOf s) :
    balanceSum (updateBalance s id delta) = balanceSum s + delta := by
  induction s with
  | nil => exact absurd hmem (by simp [idsOf])
  | cons r t ih =>
    rw [idsOf_cons, List.nodup_cons] at hnd
    rw [idsOf_cons, List.mem_cons] at hmem
    rw [updateBalance_cons]
    by_cases hr : r.account_id = id
    · have hnot : id ∉ idsOf t := hr ▸ hnd.1
      rw [if_pos hr, updateBalance_of_not_mem t id delta hnot]
      simp only [balanceSum, List.map_cons, List.sum_cons]
      omega
    · rcases hmem with hmem | hmem
      · exact absurd hmem.symm hr
      · rw [if_neg hr]
        have h2 := ih hnd.2 hmem
        simp only [balanceSum, List.map_cons, List.sum_cons] at h2 ⊢
        omega

/-- C4: immediately after the bulk insert the table is exactly two rows,
account A with balance 1000.00 and account B with balance 500.00. -/
theorem initial_state_two_rows :
    initialAccounts.length = 2 ∧
    idsOf initialAccounts = ["A", "B"] ∧
    selectBalance initialAccounts "A" = some 100000 ∧
    selectBalance initialAccounts "B" = some 50000 := by
  decide

/-- C5: from the initial state (A = 1000.00, B = 500.00), the committed
transfer of 100.00 from A to B leaves A = 900.00 and B = 600.00. -/
theorem first_transfer_balances :
    selectBalance afterFirstTransfer "A" = some 90000 ∧
    selectBalance afterFirstTransfer "B" = some 60000 := by
  decide

/-- C6: from the post-transfer state (A = 900.00, B = 600.00), the deposit
of 100.00 to A via the procedural block leaves A = 1000.00 and B = 600.00;
B's balance is exactly what it was before the deposit. -/
theorem deposit_balances :
    selectBalance afterDeposit "A" = some 100000 ∧
    selectBalance afterDeposit "B" = some 60000 ∧
    selectBalance afterDeposit "B" = selectBalance afterFirstTransfer "B" := by
  decide

/-- C7: from the post-deposit state (A = 1000.00, B = 600.00), the second
transfer of 100.00 from A to B inside a procedural block leaves
A = 900.00 and B = 700.00. -/
theorem second_transfer_balances :
    selectBalance afterSecondTransfer "A" = some 90000 ∧
    selectBalance afterSecondTransfer "B" = some 70000 := by
  decide

/-- C1: the attempted transfer of 10000.00 from A (balance 900.00) to B
takes the rollback path and returns the table exactly as it was before the
transaction: A stays at 900.00 and B at 700.00. -/
theorem rollback_preserves_state :
    transferWithCheck afterSecondTransfer 1000000 = (afterSecondTransfer, false) ∧
    selectBalance afterSecondTransfer "A" = some 90000 ∧
    selectBalance afterSecondTransfer "B" = some 70000 := by
  decide

/-- C10: inside cell-48's transaction, after the debit of 10000.00 from A
(balance 900.00) — and still when the consistency check reads it after the
credit to B — A's balance is -9100.00, violating the taught non-negative
invariant; the invariant holds in the state before the transaction and in
the state it leaves behind, i.e. only at transaction boundaries. -/
theorem rollback_intermediate_negative :
    selectBalance (updateBalance afterSecondTransfer "A" (-1000000)) "A"
      = some (-910000) ∧
    selectBalance (transfer afterSecondTransfer "A" "B" 1000000) "A"
      = some (-910000) ∧
    ¬ nonNegativeBalances (transfer afterSecondTransfer "A" "B" 1000000) ∧
    nonNegativeBalances afterSecondTransfer ∧
    nonNegativeBalances (transferWithCheck afterSecondTransfer 1000000).1 := by
  decide

/-- C2: for a table whose ids are distinct (the primary key) and contain
both accounts, a transfer of `t` from `src` to `dst` (`src` distinct from
`dst`) decrements `src`'s balance by exactly `t`, increments `dst`'s
balance by exactly `t`, and preserves the total of all balances; being a
single state-to-state step, the two updates take effect together or, on
the unreached id, not at all. -/
theorem transfer_moves_amount (s : AccountsTable) (src dst : String) (t : Int)
    (hnd : (idsOf s).Nodup) (hsrc : src ∈ idsOf s) (hdst : dst ∈ idsOf s)
    (hne : src ≠ dst) :
    selectBalance (transfer s src dst t) src
        = (selectBalance s src).map (fun b => b - t) ∧
    selectBalance (transfer s src dst t) dst
        = (selectBalance s dst).map (fun b => b + t) ∧
    balanceSum (transfer s src dst t) = balanceSum s := by
  refine ⟨?_, ?_, ?_⟩
  · rw [transfer, selectBalance_updateBalance_ne _ _ _ _ hne,
        selectBalance_updateBalance_self]
    simp [sub_eq_add_neg]
  · rw [transfer, selectBalance_updateBalance_self,
        selectBalance_updateBalance_ne _ _ _ _ (Ne.symm hne)]
  · have hdst' : dst ∈ idsOf (updateBalance s src (-t)) := by
      rw [idsOf_updateBalance]; exact hdst
    have hnd' : (idsOf (updateBalance s src (-t))).Nodup := by
      rw [idsOf_updateBalance]; exact hnd
    rw [transfer, balanceSum_updateBalance _ _ _ hnd' hdst',
        balanceSum_updateBalance _ _ _ hnd hsrc]
    omega

/-- Witness for C2: the transfer of 100.00 from A to B on the initial
table, with every hypothesis discharged concretely. -/
theorem transfer_moves_amount_witness :
    selectBalance (transfer initialAccounts "A" "B" 10000) "A"
        = (selectBalance initialAccounts "A").map (fun b => b - 10000) ∧
    selectBalance (transfer initialAccounts "A" "B" 10000) "B"
        = (selectBalance initialAccounts "B").map (fun b => b + 10000) ∧
    balanceSum (transfer initialAccounts "A" "B" 10000)
        = balanceSum initialAccounts :=
  transfer_moves_amount initialAccounts "A" "B" 10000 (by decide) (by decide)
    (by decide) (by decide)

/-- C3: the checked transfer commits exactly when the balance of `'A'`
read back after both updates is non-negative; on commit the updated table
stands, otherwise the table is exactly the pre-transaction one. -/
theorem transferWithCheck_commit_iff (s : AccountsTable) (t : Int) :
    ((transferWithCheck s t).2 = true ↔
      ∃ b, selectBalance (transfer s "A" "B" t) "A" = some b ∧ 0 ≤ b) ∧
    (transferWithCheck s t).1
      = (if (transferWithCheck s t).2 = true then transfer s "A" "B" t else s) := by
  cases h : selectBalance (transfer s "A" "B" t) "A" with
  | none => simp [transferWithCheck, h]
  | some b =>
    by_cases hb : 0 ≤ b
    · simp [transferWithCheck, h, hb]
    · simp [transferWithCheck, h, hb]

/-- C8: across every demonstrated mutating operation the row set is rigid:
updates, transfers, deposits, and the checked transfer all preserve the
list of `account_id` values (so no row is inserted or deleted and no id is
rewritten; `balance` being the only other field, nothing but balances is
mutated), and each checkpoint state of the notebook has exactly the rows
`A` and `B`. -/
theorem accounts_rows_frame :
    (∀ (s : AccountsTable) (id : String) (t : Int),
        idsOf (updateBalance s id t) = idsOf s) ∧
    (∀ (s : AccountsTable) (src dst : String) (t : Int),
        idsOf (transfer s src dst t) = idsOf s) ∧
    (∀ (s : AccountsTable) (id : String) (t : Int),
        idsOf (deposit s id t) = idsOf s) ∧
    (∀ (s : AccountsTable) (t : Int),
        idsOf (transferWithCheck s t).1 = idsOf s) ∧
    idsOf initialAccounts = ["A", "B"] ∧
    idsOf afterFirstTransfer = ["A", "B"] ∧
    idsOf afterDeposit = ["A", "B"] ∧
    idsOf afterSecondTransfer = ["A", "B"] ∧
    idsOf (transferWithCheck afterSecondTransfer 1000000).1 = ["A", "B"] := by
  refine ⟨idsOf_updateBalance, ?_, ?_, ?_,
    by decide, by decide, by decide, by decide, by decide⟩
  · intro s src dst t
    rw [transfer, idsOf_updateBalance, idsOf_updateBalance]
  · intro s id t
    rw [deposit, idsOf_updateBalance]
  · intro s t
    cases h : selectBalance (transfer s "A" "B" t) "A" with
    | none => simp [transferWithCheck, h]
    | some b =>
      have htr : idsOf (transfer s "A" "B" t) = idsOf s := by
        rw [transfer, idsOf_updateBalance, idsOf_updateBalance]
      by_cases hb : 0 ≤ b
      · simp [transferWithCheck, h, hb, htr]
      · simp [transferWithCheck, h, hb]

/-- C9: the commit/rollback decision of the checked transfer reads only
account A's post-update balance — changing B's balance alone never changes
the decision — and the schema of cell-8 carries no constraint against a
negative balance: a table with B at -700.00 satisfies every declared
constraint, and the checked transfer still commits on it (leaving B
negative) as long as A stays non-negative. -/
theorem rollback_check_only_reads_A :
    (∀ bA bB bB' t : Int,
      (transferWithCheck [⟨"A", bA⟩, ⟨"B", bB⟩] t).2
        = (transferWithCheck [⟨"A", bA⟩, ⟨"B", bB'⟩] t).2) ∧
    tableSchemaOk [⟨"A", 90000⟩, ⟨"B", -70000⟩] ∧
    (transferWithCheck [⟨"A", 90000⟩, ⟨"B", -70000⟩] 1000).2 = true ∧
    selectBalance (transferWithCheck [⟨"A", 90000⟩, ⟨"B", -70000⟩] 1000).1 "B"
      = some (-69000) := by
  refine ⟨?_, by decide, by decide, by decide⟩
  intro bA bB bB' t
  have e : ∀ b : Int, transferWithCheck [⟨"A", bA⟩, ⟨"B", b⟩] t
      = if 0 ≤ bA + -t
        then ([⟨"A", bA + -t⟩, ⟨"B", b + t⟩], true)
        else ([⟨"A", bA⟩, ⟨"B", b⟩], false) := fun b => rfl
  rw [e bB, e bB']
  by_cases hc : 0 ≤ bA + -t
  · rw [if_pos hc, if_pos hc]
  · rw [if_neg hc, if_neg hc]
